import Mathlib

/-!
Verification development for the Motive handle layer
(`src/include/motive/motivator.h` of azonalon/motive).

The `Motivator` handle classes are embedded shallowly: a handle is a pair
of an optional processor reference and a slot index, the world state maps
handle identities (modelling C++ object addresses) to handle states and
processor identities to processor states.  The processor side
(`motive/processor.h`) is not part of the sources, so its operations
(`TransferMotivator`, `RemoveMotivator`, `ValidMotivator`, slot
allocation, `SetTarget`, `Difference`) are modelled from the
specification, as marked in their doc comments.
-/

namespace Motive

/-- Pointwise function update used for world and processor state; keys are
handle identities or slot indices. -/
def upd {α β : Type} [DecidableEq α] (f : α → β) (k : α) (v : β) : α → β :=
  fun x => if x = k then v else f x

@[simp]
theorem upd_self {α β : Type} [DecidableEq α] (f : α → β) (k : α) (v : β) :
    upd f k v k = v := by
  simp [upd]

theorem upd_ne {α β : Type} [DecidableEq α] (f : α → β) (k : α) (v : β)
    (x : α) (h : x ≠ k) : upd f k v x = f x := by
  simp [upd, h]

theorem upd_idem {α β : Type} [DecidableEq α] (f : α → β) (k : α) (v v' : β) :
    upd (upd f k v) k v' = upd f k v' := by
  funext x
  by_cases hx : x = k <;> simp [upd, hx]

theorem upd_eq_self {α β : Type} [DecidableEq α] (f : α → β) (k : α) (v : β)
    (h : f k = v) : upd f k v = f := by
  funext x
  by_cases hx : x = k <;> simp [upd, hx, h]

/-- Identity of a live C++ `Motivator` object (models its address). -/
abbrev HandleId := Nat

/-- Identity of a `MotiveProcessor` instance. -/
abbrev ProcId := Nat

/-- The `MotiveIndex` type: an integer slot index into a processor. -/
abbrev MotiveIndex := Int

/-- The invalid sentinel index (`kMotiveIndexInvalid`). -/
def kMotiveIndexInvalid : MotiveIndex := -1

/-- State of one `Motivator` handle: `processor_` (null = unbound) and
`index_`, exactly the two data members of class `Motivator`. -/
structure Motivator where
  processor_ : Option ProcId
  index_ : MotiveIndex
deriving DecidableEq

/-- State of a default-constructed `Motivator`:
`processor_(nullptr), index_(kMotiveIndexInvalid)`. -/
def Motivator.reset : Motivator :=
  { processor_ := none, index_ := kMotiveIndexInvalid }

/-- Modelled from the spec: the scalar state a `MotiveProcessor1f` stores
per slot — current value, current velocity, target value, target velocity
and target arrival time.  Real values are modelled as rationals. -/
structure SlotState where
  value : ℚ
  velocity : ℚ
  targetValue : ℚ
  targetVelocity : ℚ
  targetTime : Int
deriving DecidableEq

/-- Modelled from the spec: state of one `MotiveProcessor` — the per-slot
ownership records (back-references to the owning handle), the per-slot
scalar data, a fresh-slot counter, the processor's type identifier and
dimensionality, and whether its type is modular (angle-like). -/
structure ProcState where
  owners : MotiveIndex → Option HandleId
  data : MotiveIndex → SlotState
  nextIndex : MotiveIndex
  ptype : Nat
  dims : Nat
  modular : Bool

/-- World state: every handle's fields and every processor's state. -/
structure World where
  handles : HandleId → Motivator
  procs : ProcId → ProcState

theorem World.ext_ (w w' : World) (hh : w.handles = w'.handles)
    (hp : w.procs = w'.procs) : w = w' := by
  cases w; cases w'; cases hh; cases hp; rfl

/-- Overwrite the state of one handle. -/
def World.setHandle (w : World) (h : HandleId) (m : Motivator) : World :=
  { w with handles := upd w.handles h m }

/-- Overwrite the state of one processor. -/
def World.setProc (w : World) (pid : ProcId) (p : ProcState) : World :=
  { w with procs := upd w.procs pid p }

/-- Source `Motivator::Init` (motivator.h lines 117-120): set `processor_`
and `index_`; called only by the processor. -/
def initHandle (w : World) (h : HandleId) (pid : Option ProcId)
    (i : MotiveIndex) : World :=
  w.setHandle h { processor_ := pid, index_ := i }

/-- Source `Motivator::Reset` (motivator.h line 121):
`Init(nullptr, kMotiveIndexInvalid)`. -/
def resetHandle (w : World) (h : HandleId) : World :=
  initHandle w h none kMotiveIndexInvalid

/-- Modelled from the spec: the processor's confirm-ownership check
`MotiveProcessor::ValidMotivator(index, motivator)` — true iff the
processor's ownership record for the slot names this very handle as the
current rightful owner. -/
def ProcState.validMotivator (p : ProcState) (i : MotiveIndex)
    (h : HandleId) : Bool :=
  p.owners i = some h

/-- Source `Motivator::Valid` (motivator.h lines 97-99):
`processor_ != nullptr && processor_->ValidMotivator(index_, this)`. -/
def Valid (w : World) (h : HandleId) : Bool :=
  match (w.handles h).processor_ with
  | none => false
  | some pid => (w.procs pid).validMotivator (w.handles h).index_ h

/-- Modelled from the spec: `MotiveProcessor::RemoveMotivator(index)` —
release-slot: the handle registered as owner of the slot is marked unbound
(reset through the processor's back-reference) and the ownership record
for the slot is cleared. -/
def removeMotivator (w : World) (pid : ProcId) (i : MotiveIndex) : World :=
  let w1 := match (w.procs pid).owners i with
            | some g => resetHandle w g
            | none => w
  w1.setProc pid
    { w1.procs pid with owners := upd (w1.procs pid).owners i none }

/-- Source `Motivator::Invalidate` (motivator.h lines 88-92):
`if (processor_ != nullptr) processor_->RemoveMotivator(index_)`. -/
def Invalidate (w : World) (h : HandleId) : World :=
  match (w.handles h).processor_ with
  | none => w
  | some pid => removeMotivator w pid (w.handles h).index_

/-- Modelled from the spec: re-point-ownership,
`MotiveProcessor::TransferMotivator(index, new_motivator)` — the handle
currently registered as owner of the slot is reset, the slot's ownership
record is re-pointed to the new handle, and the new handle's
`(processor, index)` pair is set through `Init`. -/
def transferMotivator (w : World) (pid : ProcId) (i : MotiveIndex)
    (newH : HandleId) : World :=
  let w1 := match (w.procs pid).owners i with
            | some g => resetHandle w g
            | none => w
  let w2 := w1.setProc pid
    { w1.procs pid with owners := upd (w1.procs pid).owners i (some newH) }
  initHandle w2 newH (some pid) i

/-- Source copy constructor `Motivator::Motivator(const Motivator&)`
(motivator.h lines 60-67): if the original is `Valid()`, transfer its slot
to the handle being constructed, else construct it unbound. -/
def copyConstruct (w : World) (original this_ : HandleId) : World :=
  match (w.handles original).processor_ with
  | some pid =>
    if (w.procs pid).validMotivator (w.handles original).index_ original then
      transferMotivator w pid (w.handles original).index_ this_
    else w.setHandle this_ Motivator.reset
  | none => w.setHandle this_ Motivator.reset

/-- Source copy-assignment `Motivator::operator=` (motivator.h lines
71-75): `Invalidate(); original.processor_->TransferMotivator(...)`.  The
source dereferences `original.processor_` unconditionally; a null
`processor_` is a fault, modelled as `none`. -/
def assign (w : World) (this_ original : HandleId) : Option World :=
  let w1 := Invalidate w this_
  match (w1.handles original).processor_ with
  | none => none
  | some pid =>
    some (transferMotivator w1 pid (w1.handles original).index_ this_)

/-- Source destructor `Motivator::~Motivator` (motivator.h line 78):
`Invalidate()`. -/
def destruct (w : World) (h : HandleId) : World :=
  Invalidate w h

/-- The `MotivatorInit` descriptor: carries the declared type. -/
structure MotivatorInit where
  ty : Nat
deriving DecidableEq

/-- The `MotiveEngine` as seen by this layer: a registry resolving a type
identifier to the responsible processor, or failing. -/
structure MotiveEngine where
  registry : Nat → Option ProcId

/-- Modelled from the spec: allocate-slot-for-new-handle — the processor
hands out a slot index and records the new handle as its owner. -/
def allocateIndex (p : ProcState) (h : HandleId) : MotiveIndex × ProcState :=
  (p.nextIndex,
   { p with owners := upd p.owners p.nextIndex (some h),
            nextIndex := p.nextIndex + 1 })

/-- Modelled from the spec: `Motivator::Initialize(init, engine)`
(declared at motivator.h line 84, body not in the sources) — if already
bound, release the current slot first; resolve the processor for the
declared type from the engine's registry (failing if unregistered);
request a new slot and bind this handle to it. -/
def InitializeMotivator (w : World) (h : HandleId) (ini : MotivatorInit)
    (eng : MotiveEngine) : Option World :=
  let w1 := Invalidate w h
  match eng.registry ini.ty with
  | none => none
  | some pid =>
    let ip := allocateIndex (w1.procs pid) h
    some (initHandle (w1.setProc pid ip.2) h (some pid) ip.1)

/-- The `MotiveTarget1f` descriptor: waypoints with target value/velocity
and arrival time, optionally overriding the current value and velocity. -/
structure MotiveTarget1f where
  currentValue : Option ℚ
  currentVelocity : Option ℚ
  targetValue : ℚ
  targetVelocity : ℚ
  targetTime : Int
deriving DecidableEq

/-- Modelled from the spec: `MotiveProcessor1f::SetTarget(index, t)` —
the processor stores the new target state for the slot; the current value
and velocity are overridden only when the descriptor supplies them. -/
def ProcState.setTarget (p : ProcState) (i : MotiveIndex)
    (t : MotiveTarget1f) : ProcState :=
  let s : SlotState :=
    { value := t.currentValue.getD (p.data i).value,
      velocity := t.currentVelocity.getD (p.data i).velocity,
      targetValue := t.targetValue,
      targetVelocity := t.targetVelocity,
      targetTime := t.targetTime }
  { p with data := upd p.data i s }

/-- Modelled from the spec: `MotiveProcessor1f::Difference(index)` —
target value minus current value; for a modular (angle-like) type the
result is the shortest signed path, i.e. the difference normalized into
the half-open interval from -180 to 180 degrees. -/
def ProcState.difference (p : ProcState) (i : MotiveIndex) : ℚ :=
  let d := (p.data i).targetValue - (p.data i).value
  if p.modular then d - 360 * ⌊(d + 180) / 360⌋ else d

/-- Source `Motivator1f::Value` (motivator.h line 172):
`Processor().Value(index_)`; unbound use is a fault, modelled as `none`. -/
def Value (w : World) (h : HandleId) : Option ℚ :=
  match (w.handles h).processor_ with
  | none => none
  | some pid => some ((w.procs pid).data (w.handles h).index_).value

/-- Source `Motivator1f::Velocity` (motivator.h line 177). -/
def Velocity (w : World) (h : HandleId) : Option ℚ :=
  match (w.handles h).processor_ with
  | none => none
  | some pid => some ((w.procs pid).data (w.handles h).index_).velocity

/-- Source `Motivator1f::TargetValue` (motivator.h line 181). -/
def TargetValue (w : World) (h : HandleId) : Option ℚ :=
  match (w.handles h).processor_ with
  | none => none
  | some pid => some ((w.procs pid).data (w.handles h).index_).targetValue

/-- Source `Motivator1f::TargetVelocity` (motivator.h line 185). -/
def TargetVelocity (w : World) (h : HandleId) : Option ℚ :=
  match (w.handles h).processor_ with
  | none => none
  | some pid =>
    some ((w.procs pid).data (w.handles h).index_).targetVelocity

/-- Source `Motivator1f::TargetTime` (motivator.h line 195). -/
def TargetTime (w : World) (h : HandleId) : Option Int :=
  match (w.handles h).processor_ with
  | none => none
  | some pid => some ((w.procs pid).data (w.handles h).index_).targetTime

/-- Source `Motivator1f::Difference` (motivator.h line 191):
`Processor().Difference(index_)`. -/
def Difference (w : World) (h : HandleId) : Option ℚ :=
  match (w.handles h).processor_ with
  | none => none
  | some pid => some ((w.procs pid).difference (w.handles h).index_)

/-- Source `Motivator::Type` (motivator.h line 104):
`processor_->Type()`; unbound use is a fault, modelled as `none`. -/
def TypeOf (w : World) (h : HandleId) : Option Nat :=
  match (w.handles h).processor_ with
  | none => none
  | some pid => some (w.procs pid).ptype

/-- Source `Motivator::Dimensions` (motivator.h line 109):
`processor_->Dimensions()`; unbound use is a fault, modelled as `none`. -/
def Dimensions (w : World) (h : HandleId) : Option Nat :=
  match (w.handles h).processor_ with
  | none => none
  | some pid => some (w.procs pid).dims

/-- Source `Motivator1f::SetTarget` (motivator.h line 208):
`Processor().SetTarget(index_, t)`; unbound use is a fault. -/
def SetTarget (w : World) (h : HandleId) (t : MotiveTarget1f) :
    Option World :=
  match (w.handles h).processor_ with
  | none => none
  | some pid =>
    some (w.setProc pid
      ((w.procs pid).setTarget (w.handles h).index_ t))

/-- Source three-argument constructor
`Motivator1f::Motivator1f(init, engine, t)` (motivator.h lines 155-159):
member-initialize the base to unbound, run the base constructor's
`Initialize(init, engine)`, then `SetTarget(t)`. -/
def Motivator1fCtor3 (w : World) (h : HandleId) (ini : MotivatorInit)
    (eng : MotiveEngine) (t : MotiveTarget1f) : Option World :=
  (InitializeMotivator (w.setHandle h Motivator.reset) h ini eng).bind
    (fun w1 => SetTarget w1 h t)

/-- Source `Motivator1f::InitializeWithTarget(init, engine, t)`
(motivator.h lines 163-167): `Initialize(init, engine); SetTarget(t)`. -/
def InitializeWithTarget (w : World) (h : HandleId) (ini : MotivatorInit)
    (eng : MotiveEngine) (t : MotiveTarget1f) : Option World :=
  (InitializeMotivator w h ini eng).bind (fun w1 => SetTarget w1 h t)

/-- The mathfu vector type `mathfu::vec3` as used by the converter. -/
structure vec3 where
  x : ℚ
  y : ℚ
  z : ℚ
deriving DecidableEq

/-- The mathfu matrix type `mathfu::mat4` as used by the converter. -/
structure mat4 where
  entries : Fin 4 → Fin 4 → ℚ

/-- Source `PassThroughVectorConverter` (motivator.h lines 329-336):
external types coincide with the internal mathfu types and every
conversion returns its argument unchanged. -/
def PassThroughVectorConverter.To (v : vec3) : vec3 := v

/-- Source `PassThroughVectorConverter::To` for matrices
(motivator.h line 333): the identity. -/
def PassThroughVectorConverter.ToMat (m : mat4) : mat4 := m

/-- Source `PassThroughVectorConverter::From` (motivator.h line 335):
the identity. -/
def PassThroughVectorConverter.From (v : vec3) : vec3 := v

/-- One operation of the handle lifecycle, for stating properties of
arbitrary operation sequences. -/
inductive Op where
  | copyCtor (original this_ : HandleId)
  | assignOp (this_ original : HandleId)
  | invalidateOp (h : HandleId)
  | initOp (h : HandleId) (ini : MotivatorInit)
deriving DecidableEq

/-- Execute one lifecycle operation; `none` models a fault. -/
def execOp (eng : MotiveEngine) (w : World) : Op → Option World
  | Op.copyCtor a b => some (copyConstruct w a b)
  | Op.assignOp b a => assign w b a
  | Op.invalidateOp h => some (Invalidate w h)
  | Op.initOp h ini => InitializeMotivator w h ini eng

/-- Execute a sequence of lifecycle operations. -/
def execOps (eng : MotiveEngine) (w : World) : List Op → Option World
  | [] => some w
  | op :: rest => (execOp eng w op).bind (fun w1 => execOps eng w1 rest)

/-! Concrete states used to instantiate the theorems below. -/

/-- A concrete slot state. -/
def slotA : SlotState :=
  { value := 1, velocity := 2, targetValue := 3, targetVelocity := 4,
    targetTime := 5 }

/-- A concrete non-modular processor owning slot 0 for handle 0. -/
def procA : ProcState :=
  { owners := upd (fun _ => none) 0 (some 0),
    data := fun _ => slotA, nextIndex := 1, ptype := 7, dims := 1,
    modular := false }

/-- A concrete world: handle 0 bound to processor 0 at slot 0, all other
handles unbound. -/
def wA : World :=
  { handles := upd (fun _ => Motivator.reset) 0
      { processor_ := some 0, index_ := 0 },
    procs := fun _ => procA }

/-- A concrete modular (angle-like) processor whose slot 0 holds current
value -170 and target value 170, owned by handle 0. -/
def procAngle : ProcState :=
  { owners := upd (fun _ => none) 0 (some 0),
    data := fun _ =>
      { value := -170, velocity := 0, targetValue := 170,
        targetVelocity := 0, targetTime := 9 },
    nextIndex := 1, ptype := 9, dims := 1, modular := true }

/-- A concrete world for the modular-difference claim. -/
def wAngle : World :=
  { handles := upd (fun _ => Motivator.reset) 0
      { processor_ := some 0, index_ := 0 },
    procs := fun _ => procAngle }

/-- A concrete engine registering type 7 with processor 0. -/
def engA : MotiveEngine :=
  { registry := fun ty => if ty = 7 then some 0 else none }

/-! Characterization lemmas for the state-changing operations. -/

@[simp]
theorem reset_processor : Motivator.reset.processor_ = none := rfl

theorem owners_unique (p : ProcState) (i : MotiveIndex) (a b : HandleId)
    (ha : p.validMotivator i a = true) (hb : p.validMotivator i b = true) :
    a = b := by
  simp only [ProcState.validMotivator, decide_eq_true_eq] at ha hb
  rw [ha] at hb
  exact (Option.some.injEq _ _).mp hb

theorem invalidate_unbound (w : World) (h : HandleId)
    (hp : (w.handles h).processor_ = none) : Invalidate w h = w := by
  simp [Invalidate, hp]

theorem invalidate_bound (w : World) (h : HandleId) (pid : ProcId)
    (hp : (w.handles h).processor_ = some pid) :
    Invalidate w h = removeMotivator w pid (w.handles h).index_ := by
  simp [Invalidate, hp]

theorem remove_handles_owner (w : World) (pid : ProcId) (i : MotiveIndex)
    (g : HandleId) (hg : (w.procs pid).owners i = some g) :
    (removeMotivator w pid i).handles g = Motivator.reset := by
  simp [removeMotivator, hg, resetHandle, initHandle, World.setHandle,
    World.setProc, Motivator.reset]

theorem remove_handles_other (w : World) (pid : ProcId) (i : MotiveIndex)
    (x : HandleId) (hx : (w.procs pid).owners i ≠ some x) :
    (removeMotivator w pid i).handles x = w.handles x := by
  cases hg : (w.procs pid).owners i with
  | none => simp [removeMotivator, hg, World.setProc]
  | some g =>
    have hgx : x ≠ g := by
      intro hc
      exact hx (hc ▸ hg)
    simp [removeMotivator, hg, resetHandle, initHandle, World.setHandle,
      World.setProc, upd_ne _ _ _ _ hgx]

theorem remove_procs_same (w : World) (pid : ProcId) (i : MotiveIndex) :
    (removeMotivator w pid i).procs pid =
      { w.procs pid with owners := upd (w.procs pid).owners i none } := by
  cases hg : (w.procs pid).owners i with
  | none => simp [removeMotivator, hg, World.setProc]
  | some g =>
    simp [removeMotivator, hg, resetHandle, initHandle, World.setHandle,
      World.setProc]

theorem remove_procs_other (w : World) (pid : ProcId) (i : MotiveIndex)
    (q : ProcId) (hq : q ≠ pid) :
    (removeMotivator w pid i).procs q = w.procs q := by
  cases hg : (w.procs pid).owners i with
  | none => simp [removeMotivator, hg, World.setProc, upd_ne _ _ _ _ hq]
  | some g =>
    simp [removeMotivator, hg, resetHandle, initHandle, World.setHandle,
      World.setProc, upd_ne _ _ _ _ hq]

theorem remove_already_removed (w : World) (pid : ProcId) (i : MotiveIndex)
    (h0 : (w.procs pid).owners i = none) : removeMotivator w pid i = w := by
  apply World.ext_
  · simp [removeMotivator, h0, World.setProc]
  · simp only [removeMotivator, h0, World.setProc]
    rw [upd_eq_self _ _ _ h0]
    exact upd_eq_self _ _ _ rfl

theorem transfer_handles_new (w : World) (pid : ProcId) (i : MotiveIndex)
    (b : HandleId) :
    (transferMotivator w pid i b).handles b =
      { processor_ := some pid, index_ := i } := by
  cases hg : (w.procs pid).owners i with
  | none =>
    simp [transferMotivator, hg, initHandle, World.setHandle, World.setProc]
  | some g =>
    simp [transferMotivator, hg, resetHandle, initHandle, World.setHandle,
      World.setProc]

theorem transfer_handles_owner (w : World) (pid : ProcId) (i : MotiveIndex)
    (b g : HandleId) (hg : (w.procs pid).owners i = some g) (hgb : g ≠ b) :
    (transferMotivator w pid i b).handles g = Motivator.reset := by
  simp [transferMotivator, hg, resetHandle, initHandle, World.setHandle,
    World.setProc, upd_ne _ _ _ _ hgb, Motivator.reset]

theorem transfer_handles_other (w : World) (pid : ProcId) (i : MotiveIndex)
    (b x : HandleId) (hxb : x ≠ b)
    (hox : (w.procs pid).owners i ≠ some x) :
    (transferMotivator w pid i b).handles x = w.handles x := by
  cases hg : (w.procs pid).owners i with
  | none =>
    simp [transferMotivator, hg, initHandle, World.setHandle, World.setProc,
      upd_ne _ _ _ _ hxb]
  | some g =>
    have hxg : x ≠ g := by
      intro hc
      exact hox (hc ▸ hg)
    simp [transferMotivator, hg, resetHandle, initHandle, World.setHandle,
      World.setProc, upd_ne _ _ _ _ hxb, upd_ne _ _ _ _ hxg]

theorem transfer_procs_same (w : World) (pid : ProcId) (i : MotiveIndex)
    (b : HandleId) :
    (transferMotivator w pid i b).procs pid =
      { w.procs pid with owners := upd (w.procs pid).owners i (some b) } := by
  cases hg : (w.procs pid).owners i with
  | none =>
    simp [transferMotivator, hg, initHandle, World.setHandle, World.setProc]
  | some g =>
    simp [transferMotivator, hg, resetHandle, initHandle, World.setHandle,
      World.setProc]

theorem transfer_procs_other (w : World) (pid : ProcId) (i : MotiveIndex)
    (b : HandleId) (q : ProcId) (hq : q ≠ pid) :
    (transferMotivator w pid i b).procs q = w.procs q := by
  cases hg : (w.procs pid).owners i with
  | none =>
    simp [transferMotivator, hg, initHandle, World.setHandle, World.setProc,
      upd_ne _ _ _ _ hq]
  | some g =>
    simp [transferMotivator, hg, resetHandle, initHandle, World.setHandle,
      World.setProc, upd_ne _ _ _ _ hq]

theorem transfer_valid_new (w : World) (pid : ProcId) (i : MotiveIndex)
    (b : HandleId) : Valid (transferMotivator w pid i b) b = true := by
  simp [Valid, transfer_handles_new, transfer_procs_same,
    ProcState.validMotivator]

theorem transfer_valid_old (w : World) (pid : ProcId) (i : MotiveIndex)
    (a b : HandleId) (hab : a ≠ b)
    (ho : (w.procs pid).owners i = some a) :
    Valid (transferMotivator w pid i b) a = false := by
  simp [Valid, transfer_handles_owner w pid i b a ho hab]

theorem transfer_value (w : World) (pid : ProcId) (i : MotiveIndex)
    (b : HandleId) :
    Value (transferMotivator w pid i b) b =
      some ((w.procs pid).data i).value := by
  simp [Value, transfer_handles_new, transfer_procs_same]

theorem transfer_velocity (w : World) (pid : ProcId) (i : MotiveIndex)
    (b : HandleId) :
    Velocity (transferMotivator w pid i b) b =
      some ((w.procs pid).data i).velocity := by
  simp [Velocity, transfer_handles_new, transfer_procs_same]

theorem transfer_targetValue (w : World) (pid : ProcId) (i : MotiveIndex)
    (b : HandleId) :
    TargetValue (transferMotivator w pid i b) b =
      some ((w.procs pid).data i).targetValue := by
  simp [TargetValue, transfer_handles_new, transfer_procs_same]

theorem transfer_targetVelocity (w : World) (pid : ProcId) (i : MotiveIndex)
    (b : HandleId) :
    TargetVelocity (transferMotivator w pid i b) b =
      some ((w.procs pid).data i).targetVelocity := by
  simp [TargetVelocity, transfer_handles_new, transfer_procs_same]

theorem transfer_targetTime (w : World) (pid : ProcId) (i : MotiveIndex)
    (b : HandleId) :
    TargetTime (transferMotivator w pid i b) b =
      some ((w.procs pid).data i).targetTime := by
  simp [TargetTime, transfer_handles_new, transfer_procs_same]

theorem transfer_difference (w : World) (pid : ProcId) (i : MotiveIndex)
    (b : HandleId) :
    Difference (transferMotivator w pid i b) b =
      some ((w.procs pid).difference i) := by
  simp [Difference, transfer_handles_new, transfer_procs_same,
    ProcState.difference]

theorem difference_congr (p p' : ProcState) (i : MotiveIndex)
    (hd : p.data = p'.data) (hm : p.modular = p'.modular) :
    p.difference i = p'.difference i := by
  simp [ProcState.difference, hd, hm]

theorem valid_owner (w : World) (h : HandleId) (pid : ProcId)
    (hp : (w.handles h).processor_ = some pid) (hv : Valid w h = true) :
    (w.procs pid).owners (w.handles h).index_ = some h := by
  simp only [Valid, hp, ProcState.validMotivator, decide_eq_true_eq] at hv
  exact hv

/-- C1: after copy-construction of `b` from a bound handle `a`, or
copy-assignment `b = a`, `a.Valid()` is false, `b.Valid()` is true, and
all of `b`'s value accessors return exactly what `a`'s returned
immediately before the transfer. -/
theorem transfer_on_copy (w : World) (a b : HandleId) (pid : ProcId)
    (hab : a ≠ b)
    (hpa : (w.handles a).processor_ = some pid)
    (hva : Valid w a = true)
    (hb : (w.handles b).processor_ = none ∨ Valid w b = true) :
    (Valid (copyConstruct w a b) a = false
      ∧ Valid (copyConstruct w a b) b = true
      ∧ Value (copyConstruct w a b) b = Value w a
      ∧ Velocity (copyConstruct w a b) b = Velocity w a
      ∧ TargetValue (copyConstruct w a b) b = TargetValue w a
      ∧ TargetVelocity (copyConstruct w a b) b = TargetVelocity w a
      ∧ TargetTime (copyConstruct w a b) b = TargetTime w a
      ∧ Difference (copyConstruct w a b) b = Difference w a)
    ∧ ∃ w2, assign w b a = some w2
      ∧ Valid w2 a = false
      ∧ Valid w2 b = true
      ∧ Value w2 b = Value w a
      ∧ Velocity w2 b = Velocity w a
      ∧ TargetValue w2 b = TargetValue w a
      ∧ TargetVelocity w2 b = TargetVelocity w a
      ∧ TargetTime w2 b = TargetTime w a
      ∧ Difference w2 b = Difference w a := by
  have hoa : (w.procs pid).owners (w.handles a).index_ = some a :=
    valid_owner w a pid hpa hva
  constructor
  · have hcc : copyConstruct w a b
        = transferMotivator w pid (w.handles a).index_ b := by
      simp [copyConstruct, hpa, ProcState.validMotivator, hoa]
    rw [hcc]
    refine ⟨transfer_valid_old w pid _ a b hab hoa,
      transfer_valid_new w pid _ b, ?_, ?_, ?_, ?_, ?_, ?_⟩
    · rw [transfer_value]
      simp [Value, hpa]
    · rw [transfer_velocity]
      simp [Velocity, hpa]
    · rw [transfer_targetValue]
      simp [TargetValue, hpa]
    · rw [transfer_targetVelocity]
      simp [TargetVelocity, hpa]
    · rw [transfer_targetTime]
      simp [TargetTime, hpa]
    · rw [transfer_difference]
      simp [Difference, hpa]
  · have hA : (Invalidate w b).handles a = w.handles a := by
      rcases hb with hbn | hvb
      · rw [invalidate_unbound w b hbn]
      · rcases hq : (w.handles b).processor_ with _ | qb
        · rw [invalidate_unbound w b hq]
        · have hob : (w.procs qb).owners (w.handles b).index_ = some b :=
            valid_owner w b qb hq hvb
          rw [invalidate_bound w b qb hq]
          refine remove_handles_other w qb _ a ?_
          rw [hob]
          intro hc
          exact hab ((Option.some.injEq _ _).mp hc).symm
    have hBpid : ((Invalidate w b).procs pid).owners (w.handles a).index_
          = some a
        ∧ ((Invalidate w b).procs pid).data = (w.procs pid).data
        ∧ ((Invalidate w b).procs pid).modular = (w.procs pid).modular := by
      rcases hb with hbn | hvb
      · rw [invalidate_unbound w b hbn]
        exact ⟨hoa, rfl, rfl⟩
      · rcases hq : (w.handles b).processor_ with _ | qb
        · rw [invalidate_unbound w b hq]
          exact ⟨hoa, rfl, rfl⟩
        · have hob : (w.procs qb).owners (w.handles b).index_ = some b :=
            valid_owner w b qb hq hvb
          rw [invalidate_bound w b qb hq]
          by_cases hqp : qb = pid
          · subst hqp
            have hij : (w.handles a).index_ ≠ (w.handles b).index_ := by
              intro hc
              rw [hc, hob] at hoa
              exact hab ((Option.some.injEq _ _).mp hoa).symm
            rw [remove_procs_same]
            exact ⟨upd_ne _ _ _ _ hij |>.trans hoa, rfl, rfl⟩
          · rw [remove_procs_other w qb _ pid (Ne.symm hqp)]
            exact ⟨hoa, rfl, rfl⟩
    obtain ⟨hB, hCd, hCm⟩ := hBpid
    have hasg : assign w b a
        = some (transferMotivator (Invalidate w b) pid
            (w.handles a).index_ b) := by
      simp [assign, hA, hpa]
    refine ⟨_, hasg, transfer_valid_old _ pid _ a b hab hB,
      transfer_valid_new _ pid _ b, ?_, ?_, ?_, ?_, ?_, ?_⟩
    · rw [transfer_value, hCd]
      simp [Value, hpa]
    · rw [transfer_velocity, hCd]
      simp [Velocity, hpa]
    · rw [transfer_targetValue, hCd]
      simp [TargetValue, hpa]
    · rw [transfer_targetVelocity, hCd]
      simp [TargetVelocity, hpa]
    · rw [transfer_targetTime, hCd]
      simp [TargetTime, hpa]
    · rw [transfer_difference,
        difference_congr _ (w.procs pid) _ hCd hCm]
      simp [Difference, hpa]

/-- Witness for C1 at a concrete world: handle 0 is bound and valid, and
after copy-constructing handle 1 from it, handle 1 is valid and reads the
value handle 0 read before. -/
theorem transfer_on_copy_witness :
    Valid wA 0 = true ∧ Valid (copyConstruct wA 0 1) 1 = true
      ∧ Value (copyConstruct wA 0 1) 1 = Value wA 0 :=
  ⟨by decide,
   (transfer_on_copy wA 0 1 0 (by decide) (by decide) (by decide)
      (Or.inl (by decide))).1.2.1,
   (transfer_on_copy wA 0 1 0 (by decide) (by decide) (by decide)
      (Or.inl (by decide))).1.2.2.1⟩

/-- The world reached from `wA` by copy-constructing handle 1 from
handle 0. -/
def wCopy : World := copyConstruct wA 0 1

/-- C2: along every sequence of copy-construction, copy-assignment,
Invalidate and Initialize operations, at every reached state each
(processor, slot index) pair has at most one handle accepted as its
rightful owner by the processor's confirm-ownership check; this holds
because the ownership record stores a single back-reference per slot, so
it holds in fact at every world state whatsoever. -/
theorem single_ownership (eng : MotiveEngine) (w0 : World) (ops : List Op)
    (w : World) (_hexec : execOps eng w0 ops = some w)
    (a b : HandleId) (pid : ProcId) (i : MotiveIndex)
    (ha : (w.procs pid).validMotivator i a = true)
    (hb : (w.procs pid).validMotivator i b = true) : a = b :=
  owners_unique (w.procs pid) i a b ha hb

/-- Witness for C2: after the one-step sequence that copy-constructs
handle 1 from handle 0, handle 1 passes confirm-ownership for slot 0, and
the theorem instantiated twice at handle 1 gives the trivial equality. -/
theorem single_ownership_witness :
    (wCopy.procs 0).validMotivator 0 1 = true ∧ (1 : HandleId) = 1 :=
  ⟨by decide,
   single_ownership engA wA [Op.copyCtor 0 1] wCopy rfl 1 1 0 0
     (by decide) (by decide)⟩

theorem invalidate_preserves_unbound (w : World) (b a : HandleId)
    (ha : (w.handles a).processor_ = none) :
    ((Invalidate w b).handles a).processor_ = none := by
  rcases hq : (w.handles b).processor_ with _ | qb
  · rw [invalidate_unbound w b hq]
    exact ha
  · rw [invalidate_bound w b qb hq]
    by_cases hx : (w.procs qb).owners (w.handles b).index_ = some a
    · rw [remove_handles_owner w qb _ a hx]
      rfl
    · rw [remove_handles_other w qb _ a hx]
      exact ha

/-- C3: copy-construction from an unbound source leaves the destination
unbound without fault; copy-assignment from an unbound source, however,
dereferences the null `processor_` of the source (motivator.h line 73)
and faults, contradicting the claim's no-fault guarantee for
assignment. -/
theorem copy_from_unbound (w : World) (a b : HandleId)
    (ha : (w.handles a).processor_ = none) :
    (copyConstruct w a b).handles b = Motivator.reset
    ∧ Valid (copyConstruct w a b) b = false
    ∧ assign w b a = none := by
  refine ⟨?_, ?_, ?_⟩
  · simp [copyConstruct, ha, World.setHandle]
  · simp [Valid, copyConstruct, ha, World.setHandle, Motivator.reset]
  · simp [assign, invalidate_preserves_unbound w b a ha]

/-- Witness for C3: in the concrete world `wA` handle 2 is unbound;
copy-constructing handle 1 from it gives an unbound handle, while the
copy-assignment `1 = 2` faults. -/
theorem copy_from_unbound_witness :
    (wA.handles 2).processor_ = none ∧ assign wA 1 2 = none :=
  ⟨by decide, (copy_from_unbound wA 2 1 (by decide)).2.2⟩

/-- C4: Invalidate is idempotent — a second Invalidate never changes the
state again; on an unbound handle it is a no-op; on a valid bound handle
it marks the handle unbound. -/
theorem invalidate_idempotent (w : World) (h : HandleId) :
    Invalidate (Invalidate w h) h = Invalidate w h
    ∧ ((w.handles h).processor_ = none → Invalidate w h = w)
    ∧ (Valid w h = true →
        ((Invalidate w h).handles h).processor_ = none) := by
  refine ⟨?_, fun hp => invalidate_unbound w h hp, ?_⟩
  · rcases hp : (w.handles h).processor_ with _ | pid
    · rw [invalidate_unbound w h hp, invalidate_unbound w h hp]
    · rw [invalidate_bound w h pid hp]
      rcases ho : (w.procs pid).owners (w.handles h).index_ with _ | g
      · have h1 : (removeMotivator w pid (w.handles h).index_).handles h
            = w.handles h :=
          remove_handles_other w pid _ h (by rw [ho]; simp)
        rw [invalidate_bound _ h pid (by rw [h1]; exact hp), h1]
        apply remove_already_removed
        rw [remove_procs_same]
        exact upd_self _ _ _
      · by_cases hgh : g = h
        · rw [hgh] at ho
          have h1 : (removeMotivator w pid (w.handles h).index_).handles h
              = Motivator.reset :=
            remove_handles_owner w pid _ h ho
          exact invalidate_unbound (removeMotivator w pid
            (w.handles h).index_) h (by rw [h1]; rfl)
        · have h1 : (removeMotivator w pid (w.handles h).index_).handles h
              = w.handles h :=
            remove_handles_other w pid _ h
              (by rw [ho]
                  intro hc
                  exact hgh ((Option.some.injEq _ _).mp hc))
          rw [invalidate_bound _ h pid (by rw [h1]; exact hp), h1]
          apply remove_already_removed
          rw [remove_procs_same]
          exact upd_self _ _ _
  · intro hv
    rcases hp : (w.handles h).processor_ with _ | pid
    · simp [Valid, hp] at hv
    · have ho := valid_owner w h pid hp hv
      rw [invalidate_bound w h pid hp, remove_handles_owner w pid _ h ho]
      rfl

/-- Witness for C4: in `wA`, handle 0 is bound and valid and becomes
unbound after one Invalidate; handle 1 is unbound and Invalidate is a
no-op on it. -/
theorem invalidate_idempotent_witness :
    Valid wA 0 = true
      ∧ ((Invalidate wA 0).handles 0).processor_ = none
      ∧ Invalidate wA 1 = wA :=
  ⟨by decide, (invalidate_idempotent wA 0).2.2 (by decide),
   (invalidate_idempotent wA 1).2.1 (by decide)⟩

/-- C5: Valid() returns true exactly when the handle holds a non-null
processor reference and that processor's confirm-ownership check reports
this handle as the current rightful owner of the handle's slot index. -/
theorem valid_iff (w : World) (h : HandleId) :
    Valid w h = true ↔
      ∃ pid, (w.handles h).processor_ = some pid
        ∧ (w.procs pid).validMotivator (w.handles h).index_ h = true := by
  constructor
  · intro hv
    rcases hp : (w.handles h).processor_ with _ | pid
    · simp [Valid, hp] at hv
    · exact ⟨pid, rfl, by simpa [Valid, hp] using hv⟩
  · rintro ⟨pid, hp, hcheck⟩
    simp [Valid, hp, hcheck]

/-- C6: Type() and Dimensions() delegate to the owning processor when the
handle is bound, returning its type identifier and channel count; while
unbound, the delegating call dereferences a null processor, modelled as
the fault value `none`. -/
theorem type_dimensions_delegate (w : World) (h : HandleId) :
    (∀ pid, (w.handles h).processor_ = some pid →
      TypeOf w h = some (w.procs pid).ptype
        ∧ Dimensions w h = some (w.procs pid).dims)
    ∧ ((w.handles h).processor_ = none →
        TypeOf w h = none ∧ Dimensions w h = none) := by
  constructor
  · intro pid hp
    exact ⟨by simp [TypeOf, hp], by simp [Dimensions, hp]⟩
  · intro hp
    exact ⟨by simp [TypeOf, hp], by simp [Dimensions, hp]⟩

/-- Witness for C6: in `wA`, handle 0 is bound to processor 0 of type 7
with 1 dimension; handle 2 is unbound and both calls fault. -/
theorem type_dimensions_delegate_witness :
    TypeOf wA 0 = some 7 ∧ Dimensions wA 0 = some 1
      ∧ TypeOf wA 2 = none :=
  ⟨((type_dimensions_delegate wA 0).1 0 (by decide)).1,
   ((type_dimensions_delegate wA 0).1 0 (by decide)).2,
   ((type_dimensions_delegate wA 2).2 (by decide)).1⟩

/-- C7: destruction is exactly Invalidate(): for a bound valid handle it
releases the slot back to the processor (the ownership record is cleared)
and unbinds the handle; destroying an unbound handle has no effect. -/
theorem destructor_releases (w : World) (h : HandleId) :
    destruct w h = Invalidate w h
    ∧ (∀ pid, (w.handles h).processor_ = some pid → Valid w h = true →
        ((destruct w h).procs pid).owners (w.handles h).index_ = none
          ∧ ((destruct w h).handles h).processor_ = none)
    ∧ ((w.handles h).processor_ = none → destruct w h = w) := by
  refine ⟨rfl, ?_, fun hp => invalidate_unbound w h hp⟩
  intro pid hp hv
  have ho := valid_owner w h pid hp hv
  constructor
  · show ((Invalidate w h).procs pid).owners _ = none
    rw [invalidate_bound w h pid hp, remove_procs_same]
    exact upd_self _ _ _
  · show ((Invalidate w h).handles h).processor_ = none
    rw [invalidate_bound w h pid hp, remove_handles_owner w pid _ h ho]
    rfl

/-- Witness for C7: destroying the bound handle 0 of `wA` clears the
ownership record of its slot, and destroying the unbound handle 1 leaves
the world unchanged. -/
theorem destructor_releases_witness :
    ((destruct wA 0).procs 0).owners 0 = none ∧ destruct wA 1 = wA :=
  ⟨((destructor_releases wA 0).2.1 0 (by decide) (by decide)).1,
   (destructor_releases wA 1).2.2 (by decide)⟩

/-- C8: Difference() delegates to the processor's notion of difference:
for a non-modular type it is the naive target minus current, and for a
modular (angle-like) type with current value -170 degrees and target
value 170 degrees it is the shortest signed path -20 degrees, not 340. -/
theorem difference_wrap (w : World) (h : HandleId) (pid : ProcId)
    (hp : (w.handles h).processor_ = some pid) :
    Difference w h = some ((w.procs pid).difference (w.handles h).index_)
    ∧ ((w.procs pid).modular = false →
        (w.procs pid).difference (w.handles h).index_ =
          ((w.procs pid).data (w.handles h).index_).targetValue -
            ((w.procs pid).data (w.handles h).index_).value)
    ∧ ((w.procs pid).modular = true →
        ((w.procs pid).data (w.handles h).index_).value = -170 →
        ((w.procs pid).data (w.handles h).index_).targetValue = 170 →
        (w.procs pid).difference (w.handles h).index_ = -20) := by
  refine ⟨by simp [Difference, hp], ?_, ?_⟩
  · intro hm
    simp [ProcState.difference, hm]
  · intro hm hv ht
    simp only [ProcState.difference, hm, hv, ht, if_true]
    norm_num

/-- Witness for C8: in the modular world `wAngle`, handle 0's slot holds
current value -170 and target 170, and Difference() returns -20. -/
theorem difference_wrap_witness :
    procAngle.modular = true
      ∧ (wAngle.procs 0).difference (wAngle.handles 0).index_ = -20 :=
  ⟨by decide,
   (difference_wrap wAngle 0 0 (by decide)).2.2 (by decide) (by decide)
     (by decide)⟩

/-- C9: the pass-through adapter's conversions are exact round-trips:
converting an external vector to the internal representation via From and
back via To is the identity, and so is the other direction; the matrix
conversion is likewise the identity. -/
theorem passthrough_roundtrip :
    (∀ v : vec3, PassThroughVectorConverter.To
        (PassThroughVectorConverter.From v) = v)
    ∧ (∀ v : vec3, PassThroughVectorConverter.From
        (PassThroughVectorConverter.To v) = v)
    ∧ (∀ m : mat4, PassThroughVectorConverter.ToMat m = m) :=
  ⟨fun _ => rfl, fun _ => rfl, fun _ => rfl⟩

/-- A concrete target descriptor. -/
def tA : MotiveTarget1f :=
  { currentValue := some 10, currentVelocity := none, targetValue := 20,
    targetVelocity := 0, targetTime := 100 }

/-- C10: on a default-constructed handle, the three-argument constructor
`Motivator1f(init, engine, t)`, `InitializeWithTarget(init, engine, t)`,
and `Initialize(init, engine)` followed by `SetTarget(t)` all produce the
same observable state. -/
theorem ctor_with_target_equiv (w : World) (h : HandleId)
    (ini : MotivatorInit) (eng : MotiveEngine) (t : MotiveTarget1f)
    (hdef : w.handles h = Motivator.reset) :
    Motivator1fCtor3 w h ini eng t = InitializeWithTarget w h ini eng t
    ∧ InitializeWithTarget w h ini eng t =
        (InitializeMotivator w h ini eng).bind
          (fun w1 => SetTarget w1 h t) := by
  have hsh : w.setHandle h Motivator.reset = w := by
    apply World.ext_
    · exact upd_eq_self _ _ _ hdef
    · rfl
  exact ⟨by unfold Motivator1fCtor3 InitializeWithTarget; rw [hsh], rfl⟩

/-- Witness for C10: in `wA`, handle 1 is default-constructed, and the
three-argument constructor agrees with InitializeWithTarget on it at a
concrete descriptor, engine and target. -/
theorem ctor_with_target_equiv_witness :
    wA.handles 1 = Motivator.reset
      ∧ Motivator1fCtor3 wA 1 { ty := 7 } engA tA =
          InitializeWithTarget wA 1 { ty := 7 } engA tA :=
  ⟨by decide,
   (ctor_with_target_equiv wA 1 { ty := 7 } engA tA (by decide)).1⟩

end Motive
